import Mathlib

set_option maxHeartbeats 1000000

/-!
Shallow embedding of the two Airtable helper scripts of the VisAPI backend
(`airtable_lookup.py` and `airtable_completed_tracker.py`), together with
theorems settling the specification claims about them.

Modelling conventions:
* Python strings are Lean `String`s; `str.strip()` is `pyStrip` and
  `str.lower()` is `pyLower`, character-list implementations of the same
  operations (chosen over `String.trim` / `String.toLower`, whose
  position-based recursion does not reduce inside the kernel).
* Remote HTTP interaction is abstracted as oracle functions passed in as
  parameters; the requests a function issues are returned alongside its
  result so that theorems can speak about what was sent.
* `sys.exit(0)` after writing a JSON payload is modelled as the outcome
  `ScriptOutcome.emitted`; an uncaught Python exception is
  `ScriptOutcome.crashed`.
* `meta["execution_ms"]` (wall-clock time) is omitted from the envelope
  model: no claim concerns it and it is not a function of the inputs.
-/

namespace VisAPI

/-- Values of Airtable record fields as far as the scripts inspect them:
strings, lists of linked-record ids, JSON null, or anything else
(`other` collapses the remaining JSON values; the scripts only ever
branch on the three listed shapes). -/
inductive FieldValue
  | str (s : String)
  | list (ids : List String)
  | nullv
  | other
deriving DecidableEq

/-- An Airtable record as consumed by the scripts: `record.get("id")`,
`record.get("fields", {})`, `record.get("createdTime")`. -/
structure AirRecord where
  id : Option String
  fields : List (String × FieldValue)
  createdTime : Option String
deriving DecidableEq

/-- Lookup in a Python dict of fields (keys assumed unique, as produced by
`json.loads`). -/
def dictGetF (kvs : List (String × FieldValue)) (k : String) : Option FieldValue :=
  (kvs.find? (fun p => p.1 == k)).map (fun p => p.2)

/-- Python truthiness of an environment-variable value:
`None` and `""` are falsy. -/
def truthyOpt : Option String → Bool
  | none => false
  | some s => s != ""

/-- Python truthiness of a field value. `other` stands for the remaining
JSON values and is treated as truthy; the theorems that depend on
truthiness restrict attention to string/null fields. -/
def fvTruthy : FieldValue → Bool
  | FieldValue.str s => s != ""
  | FieldValue.list ids => !ids.isEmpty
  | FieldValue.nullv => false
  | FieldValue.other => true

/-- Python `str.strip()`: drop leading and trailing whitespace. -/
def pyStrip (s : String) : String :=
  String.mk (((s.toList.dropWhile Char.isWhitespace).reverse.dropWhile
    Char.isWhitespace).reverse)

/-- Python `str.lower()`: lowercase every character. -/
def pyLower (s : String) : String :=
  String.mk (s.toList.map Char.toLower)

/-- `sanitize_formula_value` (both scripts, identical): escape single
quotes for inclusion within Airtable formulas. -/
def sanitize_formula_value (value : String) : String :=
  value.replace "\x27" "\\\x27"

/- ===================== airtable_lookup.py ===================== -/

/-- `get_israeli_phone_variant` (airtable_lookup.py lines 170-186).
For Israeli phone numbers starting with 972, return the variant
with/without the trunk zero. The Python string is inspected through its
character list (`phone.startswith("972")` is `toList.take 3 = ['9','7','2']`,
`phone[3]` is `toList[3]?`, slicing is `take`/`drop`). -/
def get_israeli_phone_variant (phone : String) : Option String :=
  let cs := phone.toList
  if cs.take 3 ≠ ['9', '7', '2'] ∨ cs.length < 4 then none
  else if cs[3]? = some '0' then some (String.mk (cs.take 3 ++ cs.drop 4))
  else some (String.mk (cs.take 3 ++ '0' :: cs.drop 3))

/-- A raw item of the list returned by the primary fetch; the script checks
`isinstance(record, dict)` on each, so the model distinguishes dict records
from anything else. -/
inductive RawItem
  | record (r : AirRecord)
  | nondict
deriving DecidableEq

/-- `isinstance(record, dict)` on a raw fetched item. -/
def isDict : RawItem → Bool
  | RawItem.record _ => true
  | RawItem.nondict => false

/-- A primary query as issued by `perform_search` /
`query_airtable_with_expansion`: the filter formula, the record bound
(absent in the no-keyword fallback), and the view. -/
structure PrimaryQuery where
  formula : String
  maxRecords : Option Nat
  view : Option String
deriving DecidableEq

/-- Which client strategy is available (airtable_lookup.py lines 216-222):
whether `pyairtable` imports, and whether its `Table.all` accepts the
`max_records` keyword (an old version raises `TypeError`, line 236). -/
structure ClientEnv where
  pyairtable_available : Bool
  accepts_max_records : Bool
deriving DecidableEq

/-- Semantics of a record bound on the server's matching records: `maxRecords`
truncates, its absence returns everything. -/
def applyMax : Option Nat → List RawItem → List RawItem
  | none, l => l
  | some n, l => l.take n

/-- The equality formula built by both query paths
(lines 99-100 and 227-228): `LOWER({field}) = 'value'` with the value
lowercased and quote-escaped. -/
def build_equality_formula (field_name value : String) : String :=
  "LOWER(\x7b" ++ field_name ++ "\x7d) = \x27" ++
    sanitize_formula_value (pyLower value) ++ "\x27"

/-- `perform_search` (airtable_lookup.py lines 214-252), success path,
with the request(s) actually issued returned alongside the result.
`server` maps an issued query to the records the remote store returns for
it (already bound by the query's own `maxRecords`, via `applyMax`).
With pyairtable available, `table.all(..., max_records=3)` is attempted;
if the installed version rejects the keyword (`TypeError`, raised before
any network traffic), the `except TypeError` branch retries with no
record bound (lines 236-240). Without pyairtable the REST path
(`query_airtable_with_expansion`, `maxRecords: 3`) is used. -/
def perform_search_model (client : ClientEnv) (server : PrimaryQuery → List RawItem)
    (field_name value : String) (view : Option String) : List RawItem × List PrimaryQuery :=
  let formula := build_equality_formula field_name value
  if client.pyairtable_available then
    if client.accepts_max_records then
      let q : PrimaryQuery := ⟨formula, some 3, view⟩
      (applyMax (some 3) (server q), [q])
    else
      let q : PrimaryQuery := ⟨formula, none, view⟩
      (applyMax none (server q), [q])
  else
    let q : PrimaryQuery := ⟨formula, some 3, view⟩
    (applyMax (some 3) (server q), [q])

/-- A request to fetch linked records, as issued by `fetch_linked_records`
(identical in both scripts). -/
structure LinkedRequest where
  table : String
  formula : String
  maxRecords : Nat
deriving DecidableEq

/-- Outcome of the HTTP GET inside `fetch_linked_records`: parsed records on
success, or any exception during request/status-check/JSON-parsing. -/
inductive HttpOutcome
  | ok (records : List AirRecord)
  | exc
deriving DecidableEq

/-- The membership formula of `fetch_linked_records`
(airtable_lookup.py lines 150-152, airtable_completed_tracker.py lines
204-206): one `RECORD_ID() = '...'` clause per id, ids truncated to the
first 10, OR-combined when more than one. The `[0]` indexing of the
single-clause case is only reached with a nonempty id list (the caller
guard returns early on `[]`); `headD ""` renders the unreachable case. -/
def buildLinkedFormula (record_ids : List String) : String :=
  let id_conditions := (record_ids.take 10).map
    (fun rid => "RECORD_ID() = \x27" ++ rid ++ "\x27")
  if id_conditions.length > 1 then
    "OR(" ++ String.intercalate "," id_conditions ++ ")"
  else id_conditions.headD ""

/-- The single bounded request `fetch_linked_records` issues. -/
def linkedRequest (linked_table_name : String) (record_ids : List String) : LinkedRequest :=
  ⟨linked_table_name, buildLinkedFormula record_ids, 10⟩

/-- `fetch_linked_records` (airtable_lookup.py lines 132-167,
airtable_completed_tracker.py lines 186-221, identical): early-return `[]`
on an empty id list or empty table name, one bounded request, and a bare
`except:` that turns any failure into `[]`. -/
def fetch_linked_records (http : LinkedRequest → HttpOutcome)
    (linked_table_name : String) (record_ids : List String) : List AirRecord :=
  if record_ids.isEmpty || (linked_table_name == "") then []
  else
    match http (linkedRequest linked_table_name record_ids) with
    | HttpOutcome.ok records => records
    | HttpOutcome.exc => []

/- ===================== airtable_completed_tracker.py ===================== -/

/-- One page of a paginated Airtable response: the records plus the
continuation cursor (`data.get("offset")`). -/
structure AirPage where
  records : List AirRecord
  offset : Option String
deriving DecidableEq

/-- One remote response in the pagination loop: a parsed page, or an
exception (`requestExc` distinguishes `requests.exceptions.RequestException`
from any other exception). -/
inductive PageResponse
  | success (page : AirPage)
  | failure (requestExc : Bool) (msg : String)
deriving DecidableEq

/-- A GET request issued by the pagination loop of `fetch_all_from_view`:
the view, the constant `pageSize: 100`, and the `offset` parameter (only
set when the carried cursor is truthy). -/
structure PageRequest where
  view : String
  pageSize : Nat
  offset : Option String
deriving DecidableEq

/-- The error payload `fetch_all_from_view` emits on a failed page fetch
(message, code, and the `fetched_so_far` detail). -/
structure FetchError where
  error : String
  code : String
  fetched_so_far : Nat
deriving DecidableEq

/-- The `while True` pagination loop of `fetch_all_from_view`
(airtable_completed_tracker.py lines 85-119), recursing over the stream of
remote responses. Carries the current cursor `off` and the accumulated
`all_records`; returns the loop's result together with the list of
requests issued. A response stream long enough for the run is supplied;
under the theorems' hypotheses the loop breaks exactly at the stream's
last page (the `[]` case is never reached from a truthy cursor). -/
def fetch_pages (view_id : String) :
    Option String → List AirRecord → List PageResponse →
    Except FetchError (List AirRecord) × List PageRequest
  | _, acc, [] => (Except.ok acc, [])
  | off, acc, resp :: rest =>
    let req : PageRequest := ⟨view_id, 100, if truthyOpt off then off else none⟩
    match resp with
    | PageResponse.failure isReq msg =>
      (Except.error ⟨(if isReq then "Failed to fetch records from view: "
          else "Unexpected error during fetch: ") ++ msg,
        if isReq then "API_ERROR" else "QUERY_ERROR", acc.length⟩, [req])
    | PageResponse.success page =>
      let acc2 := acc ++ page.records
      if truthyOpt page.offset then
        let next := fetch_pages view_id page.offset acc2 rest
        (next.1, req :: next.2)
      else
        (Except.ok acc2, [req])

/-- `fetch_all_from_view` (airtable_completed_tracker.py lines 68-121):
start the pagination loop with no cursor and an empty accumulator. -/
def fetch_all_from_view (view_id : String) (responses : List PageResponse) :
    Except FetchError (List AirRecord) × List PageRequest :=
  fetch_pages view_id none [] responses

/-- A page sequence in which every page but the last carries a (truthy)
continuation cursor and the last does not. -/
def wellCursored : List AirPage → Bool
  | [] => true
  | [p] => !(truthyOpt p.offset)
  | p :: rest => truthyOpt p.offset && wellCursored rest

/-- The comparison Python's `list.sort()` uses on the collected timestamp
values: lexicographic `≤` on strings. Non-string values are ordered below
strings so that the relation is total and transitive; Python would raise
`TypeError` on such a comparison, and the theorems about the sort restrict
attention to all-string collections. -/
def fvLe : FieldValue → FieldValue → Bool
  | FieldValue.str a, FieldValue.str b => decide (a ≤ b)
  | FieldValue.str _, _ => false
  | _, _ => true

/-- `fvLe` as a relation, for `List.insertionSort`. -/
def fvle (a b : FieldValue) : Prop := fvLe a b = true

instance : DecidableRel fvle :=
  fun a b => inferInstanceAs (Decidable (fvLe a b = true))

instance : IsTotal FieldValue fvle := by
  constructor
  intro a b
  cases a <;> cases b <;> simp [fvle, fvLe]
  exact le_total _ _

instance : IsTrans FieldValue fvle := by
  constructor
  intro a b c hab hbc
  cases a <;> cases b <;> cases c <;> simp_all [fvle, fvLe]
  exact le_trans hab hbc

/-- The collection loop of airtable_completed_tracker.py lines 306-310:
for each record, take `record.get("fields", {}).get("Completed Timestamp")`
and keep it when truthy (`if ct:`). -/
def collectCompletedTimestamps (records : List AirRecord) : List FieldValue :=
  records.filterMap (fun record =>
    match dictGetF record.fields "Completed Timestamp" with
    | some ct => if fvTruthy ct then some ct else none
    | none => none)

/-- The `newest_completed_timestamp` metadata computation of incremental
mode (airtable_completed_tracker.py lines 304-314): absent when no records
or no truthy timestamps were collected, otherwise the last element of the
sorted collection (`completed_timestamps.sort(); [-1]`). -/
def newest_completed_timestamp (records : List AirRecord) : Option FieldValue :=
  if records.isEmpty then none
  else
    let completed_timestamps := collectCompletedTimestamps records
    if completed_timestamps.isEmpty then none
    else (List.insertionSort fvle completed_timestamps).getLast?

/- ============== airtable_lookup.py: main orchestration ============== -/

/-- A JSON value as decoded by `json.loads`. -/
inductive PyJson
  | null
  | bool (b : Bool)
  | num (n : Int)
  | str (s : String)
  | arr (elems : List PyJson)
  | obj (entries : List (String × PyJson))

/-- Python truthiness of a decoded JSON value. -/
def pyTruthy : PyJson → Bool
  | PyJson.null => false
  | PyJson.bool b => b
  | PyJson.num n => n != 0
  | PyJson.str s => s != ""
  | PyJson.arr l => !l.isEmpty
  | PyJson.obj l => !l.isEmpty

/-- Python `str()` of a decoded JSON value. Container reprs are abbreviated
to fixed placeholders: the scripts only compare the result against the
fixed field names and check non-emptiness, and no container repr is empty
or equals a field name. -/
def pyStr : PyJson → String
  | PyJson.null => "None"
  | PyJson.bool true => "True"
  | PyJson.bool false => "False"
  | PyJson.num n => toString n
  | PyJson.str s => s
  | PyJson.arr _ => "[...]"
  | PyJson.obj _ => "\x7b...\x7d"

/-- `payload.get(k)` on a decoded JSON object (keys assumed unique, as
produced by `json.loads`). -/
def dictGet (entries : List (String × PyJson)) (k : String) : Option PyJson :=
  (entries.find? (fun p => p.1 == k)).map (fun p => p.2)

/-- The whole standard-input stream, as the script distinguishes it:
empty, nonempty but not JSON, or a decoded JSON document. -/
inductive StdinModel
  | empty
  | notJson (raw : String)
  | json (payload : PyJson)

/-- The error payload assembled by `emit_error`: message, code, and whether
a `details` entry is attached (its contents are not inspected by any
claim). -/
structure ErrorInfo where
  error : String
  code : String
  hasDetails : Bool
deriving DecidableEq

/-- A simplified record as built by `main` (airtable_lookup.py lines
279-305): `{id, fields, createdTime}` plus the optional `expanded` key
(absent when `none`). -/
structure SimplifiedRecord where
  id : Option String
  fields : List (String × FieldValue)
  createdTime : Option String
  expanded : Option (List (String × List AirRecord))
deriving DecidableEq

/-- The `meta` block of a success envelope (lines 307-316), minus
`execution_ms`. `used_phone_variant` / `variant_used` are `none` when the
keys are absent. -/
structure LookupMeta where
  total_matches : Nat
  expanded : Bool
  used_phone_variant : Option Bool
  variant_used : Option String
deriving DecidableEq

/-- The one JSON object the script writes to standard output. -/
inductive Envelope
  | errorEnv (e : ErrorInfo)
  | okEnv (matchList : List SimplifiedRecord) (meta : LookupMeta)
deriving DecidableEq

/-- How an invocation of the script ends: `emitted` is `emit`'s
`sys.stdout.write(json.dumps(payload)); sys.exit(0)`; `crashed` is an
uncaught Python exception (traceback on stderr, nonzero exit status). -/
inductive ScriptOutcome
  | emitted (env : Envelope)
  | crashed (reason : String)
deriving DecidableEq

/-- The process exit status of each outcome: `emit` calls `sys.exit(0)`;
an uncaught exception makes the interpreter exit with status 1. -/
def exitCode : ScriptOutcome → Nat
  | ScriptOutcome.emitted _ => 0
  | ScriptOutcome.crashed _ => 1

/-- `normalise_field` (airtable_lookup.py lines 67-79): map case-insensitive
synonyms to canonical Airtable field names, or emit an `INPUT_ERROR`. -/
def normalise_field (field : String) : Except ErrorInfo String :=
  let key := pyLower (pyStrip field)
  if key = "email" then Except.ok "Email"
  else if key = "orderid" ∨ key = "order_id" then Except.ok "ID"
  else if key = "phone" then Except.ok "Phone"
  else Except.error ⟨"Unsupported lookup field. Expected \x27email\x27, \x27orderId\x27, or \x27phone\x27.",
    "INPUT_ERROR", false⟩

/-- The static linked-table configuration (airtable_lookup.py lines
271-274), in dict insertion order. -/
def LINKED_TABLES : List (String × String) :=
  [("Applications ↗", "tbl5llU1H1vvOJV34"), ("Transactions ↗", "tblremNCbcR0kUIDF")]

/-- One iteration of the expansion loop over `LINKED_TABLES.items()`
(lines 290-300): when the linked field is present, a nonempty list, and
its fetch returns records, append them under the derived key. -/
def expand_step (linkFetch : String → List String → List AirRecord)
    (fields : List (String × FieldValue))
    (expanded : List (String × List AirRecord)) (ft : String × String) :
    List (String × List AirRecord) :=
  match dictGetF fields ft.1 with
  | some (FieldValue.list record_ids) =>
    if record_ids.isEmpty then expanded
    else
      let linked_records := linkFetch ft.2 record_ids
      if linked_records.isEmpty then expanded
      else expanded ++ [(ft.1.replace " ↗" "_expanded", linked_records)]
  | _ => expanded

/-- The `expanded` dict built for a single-match record (lines 287-300).
`linkFetch` abstracts `fetch_linked_records` with the credentials fixed;
by `fetch_linked_records_never_propagates` it is a total function into
record lists. -/
def expand_linked (linkFetch : String → List String → List AirRecord)
    (fields : List (String × FieldValue)) : List (String × List AirRecord) :=
  LINKED_TABLES.foldl (expand_step linkFetch fields) []

/-- The simplification loop of `main` (airtable_lookup.py lines 276-305):
non-dict raw items are silently skipped; each dict record is reduced to
`{id, fields, createdTime}`; when the whole match list has exactly one
element, linked-record expansion is attempted and an `expanded` key is
added if it produced anything. -/
def simplify_matches (linkFetch : String → List String → List AirRecord)
    (matchList : List RawItem) : List SimplifiedRecord :=
  matchList.filterMap (fun item =>
    match item with
    | RawItem.nondict => none
    | RawItem.record record =>
      let simplified : SimplifiedRecord :=
        ⟨record.id, record.fields, record.createdTime, none⟩
      if matchList.length = 1 then
        let expanded := expand_linked linkFetch record.fields
        if expanded.isEmpty then some simplified
        else some { simplified with expanded := some expanded }
      else some simplified)

/-- The tail of `main` (airtable_lookup.py lines 276-324): simplify the
final match list, assemble `meta`, and emit the success envelope.
`upv` / `variant_used` are the `used_phone_variant` / `variant_used`
variables at that point. -/
def finish_lookup (linkFetch : String → List String → List AirRecord)
    (matchList : List RawItem) (upv : Bool) (variant_used : Option String) :
    ScriptOutcome :=
  let simplified_matches := simplify_matches linkFetch matchList
  ScriptOutcome.emitted (Envelope.okEnv simplified_matches
    { total_matches := simplified_matches.length,
      expanded := matchList.length == 1,
      used_phone_variant := if upv then some true else none,
      variant_used := if upv then variant_used else none })

/-- Result of one `perform_search(search_value)` call as seen by `main`:
either the fetched raw list, or an error envelope that `perform_search`
emitted (all its failure paths end in `emit_error`). -/
inductive SearchResult
  | found (items : List RawItem)
  | fail (e : ErrorInfo)
deriving DecidableEq

/-- The search-and-retry block of `main` (airtable_lookup.py lines
254-267): initial search, then — only when it returned zero results and
the raw `field` string equals `"phone"` — a single retry with the Israeli
phone variant, recording whether the variant produced the final match list.
`search` abstracts `perform_search` with field name, credentials and view
fixed (both calls pass only a different search value). -/
def resolve_matches (field value : String) (search : String → SearchResult) :
    Except ErrorInfo (List RawItem × Bool × Option String) :=
  match search value with
  | SearchResult.fail e => Except.error e
  | SearchResult.found matchList =>
    if matchList.length = 0 ∧ field = "phone" then
      match get_israeli_phone_variant value with
      | some variant =>
        match search variant with
        | SearchResult.fail e => Except.error e
        | SearchResult.found matches2 =>
          if matches2.length > 0 then Except.ok (matches2, true, some variant)
          else Except.ok (matches2, false, none)
      | none => Except.ok (matchList, false, none)
    else Except.ok (matchList, false, none)

/-- The tail of `main` after validation (airtable_lookup.py lines
254-324): the search-and-retry block, followed by simplification /
expansion and the success emit (or the error envelope a failing search
emitted). -/
def search_and_emit (field value : String) (search : String → SearchResult)
    (linkFetch : String → List String → List AirRecord) : ScriptOutcome :=
  match resolve_matches field value search with
  | Except.error e => ScriptOutcome.emitted (Envelope.errorEnv e)
  | Except.ok (matchList, upv, vu) => finish_lookup linkFetch matchList upv vu

/-- The environment variables read by `main` (lines 200-203). -/
structure EnvCfg where
  api_key : Option String
  base_id : Option String
  table_id : Option String
  view_id : Option String
deriving DecidableEq

/-- `main` of airtable_lookup.py (lines 189-324): payload loading
(`load_payload`, lines 52-64), field/value extraction, validation,
credential check, field normalisation, search with optional phone-variant
retry, simplification/expansion, and the final emit. A payload that
decodes to a non-object makes `payload.get("field", "")` raise
`AttributeError` (no surrounding handler), modelled as `crashed`. -/
def lookup_main (stdin : StdinModel) (env : EnvCfg)
    (search : String → SearchResult)
    (linkFetch : String → List String → List AirRecord) : ScriptOutcome :=
  match stdin with
  | StdinModel.empty =>
    ScriptOutcome.emitted (Envelope.errorEnv ⟨"Missing input payload", "INPUT_ERROR", false⟩)
  | StdinModel.notJson _ =>
    ScriptOutcome.emitted (Envelope.errorEnv ⟨"Invalid JSON payload received", "INPUT_ERROR", true⟩)
  | StdinModel.json payload =>
    match payload with
    | PyJson.obj entries =>
      let field := pyStr ((dictGet entries "field").getD (PyJson.str ""))
      let vraw := (dictGet entries "value").getD PyJson.null
      let value := pyStrip (pyStr (if pyTruthy vraw then vraw
        else (dictGet entries "key").getD (PyJson.str "")))
      if value = "" then
        ScriptOutcome.emitted (Envelope.errorEnv
          ⟨"Lookup value must not be empty", "INPUT_ERROR", false⟩)
      else if !truthyOpt env.api_key || !truthyOpt env.base_id || !truthyOpt env.table_id then
        ScriptOutcome.emitted (Envelope.errorEnv
          ⟨"Airtable credentials not configured. Ensure AIRTABLE_API_KEY, AIRTABLE_BASE_ID, and AIRTABLE_TABLE_ID are set.",
            "CONFIGURATION_ERROR", false⟩)
      else
        match normalise_field field with
        | Except.error e => ScriptOutcome.emitted (Envelope.errorEnv e)
        | Except.ok _field_name => search_and_emit field value search linkFetch
    | _ =>
      ScriptOutcome.crashed "AttributeError: payload has no attribute get"

/-- The concatenation of all pages' record lists, in their given order. -/
def pagesRecords : List AirPage → List AirRecord
  | [] => []
  | p :: rest => p.records ++ pagesRecords rest

/-- A concrete two-page stream for the pagination witness, the first page
carrying a cursor. -/
def samplePages : List AirPage :=
  [⟨[⟨some "rec1", [], some "t1"⟩], some "cursor1"⟩,
   ⟨[⟨some "rec2", [], some "t2"⟩], none⟩]

/-- Two concrete incremental-mode records with ISO 8601 timestamps, for
the C8 witness. -/
def sampleCompleted : List AirRecord :=
  [⟨some "r1", [("Completed Timestamp", FieldValue.str "2025-09-28T10:00:00Z")], none⟩,
   ⟨some "r2", [("Completed Timestamp", FieldValue.str "2025-10-01T08:00:00Z")], none⟩]

/-- A concrete single-match record with a populated linked field, for the
C4 witness. -/
def sampleRec : AirRecord :=
  ⟨some "rec1", [("Applications ↗", FieldValue.list ["recA"])], some "tc"⟩

/-- A concrete linked-record resolver returning one record, for the C4
witness. -/
def sampleLink : String → List String → List AirRecord :=
  fun _ _ => [⟨some "recA", [], none⟩]

/-- A concrete search oracle for the phone-variant scenarios: zero matches
for the direct value, one match for the variant with the trunk zero. -/
def phoneSearch : String → SearchResult :=
  fun s =>
    if s = "9720501234567"
    then SearchResult.found [RawItem.record ⟨some "recX", [], none⟩]
    else SearchResult.found []

/- ===================== Theorems ===================== -/

/-- Repackaging a character list is the identity on `toList`. -/
theorem toList_mk (l : List Char) : (String.mk l).toList = l := rfl

/-- C1. Counterexample to the claim as stated: `"9720"` begins with
`"972"` and has length 4, but applying `get_israeli_phone_variant` twice
gives `none` (the variant `"972"` is too short to have a variant), not
the original string. -/
theorem C1_counterexample :
    "9720".toList.take 3 = ['9', '7', '2'] ∧ 4 ≤ "9720".length ∧
    (get_israeli_phone_variant "9720").bind get_israeli_phone_variant ≠
      some "9720" := by
  decide

/-- Evaluation of `get_israeli_phone_variant` on a string of the shape
`972` followed by at least one character: toggle the trunk zero. -/
theorem variant_cons (d : Char) (t : List Char) :
    get_israeli_phone_variant (String.mk ('9' :: '7' :: '2' :: d :: t)) =
      if d = '0' then some (String.mk ('9' :: '7' :: '2' :: t))
      else some (String.mk ('9' :: '7' :: '2' :: '0' :: d :: t)) := by
  have hA : ¬(List.take 3 ('9' :: '7' :: '2' :: d :: t) ≠ ['9', '7', '2'] ∨
      ('9' :: '7' :: '2' :: d :: t).length < 4) := by
    push_neg
    refine ⟨by simp [List.take], ?_⟩
    simp only [List.length_cons]
    omega
  simp only [get_israeli_phone_variant, toList_mk]
  rw [if_neg hA]
  by_cases hd : d = '0'
  · subst hd
    rw [if_pos (by simp), if_pos rfl]
    simp [List.take]
  · rw [if_neg (by simp [hd]), if_neg hd]
    simp [List.take]

/-- C1 (amended). For every phone string beginning with `"972"` of length
at least 4, applying `get_israeli_phone_variant` twice returns the
original string, provided that when the character after the prefix is
`'0'` the string has length at least 5 and the following character is not
`'0'` (otherwise the second application drops a further zero, or the
variant is too short to have a variant at all). -/
theorem C1_variant_involution (phone : String)
    (h3 : phone.toList.take 3 = ['9', '7', '2'])
    (h4 : 4 ≤ phone.toList.length)
    (h0 : phone.toList[3]? = some '0' →
      5 ≤ phone.toList.length ∧ phone.toList[4]? ≠ some '0') :
    (get_israeli_phone_variant phone).bind get_israeli_phone_variant =
      some phone := by
  obtain ⟨cs⟩ := phone
  rw [toList_mk] at h3 h4 h0
  rcases cs with _ | ⟨a, _ | ⟨b, _ | ⟨c, _ | ⟨d, t⟩⟩⟩⟩
  · simp at h3
  · simp at h3
  · simp at h3
  · simp at h4
  · obtain ⟨rfl, rfl, rfl⟩ : a = '9' ∧ b = '7' ∧ c = '2' := by
      simpa [List.take] using h3
    by_cases hd : d = '0'
    · subst hd
      obtain ⟨h5, h4ne⟩ := h0 (by simp)
      rcases t with _ | ⟨e, t2⟩
      · simp at h5
      · have he : e ≠ '0' := by simpa using h4ne
        simp [variant_cons, he]
    · simp [variant_cons, hd]

/-- C1 witness: the amended involution evaluated on a concrete Israeli
phone number without a trunk zero. -/
theorem C1_witness :
    (get_israeli_phone_variant "972501234567").bind get_israeli_phone_variant =
      some "972501234567" :=
  C1_variant_involution "972501234567" (by decide) (by decide) (by decide)

/-- C3. Counterexample to the claim as stated: with pyairtable installed
but its `Table.all` rejecting the `max_records` keyword, the `except
TypeError` fallback issues the query with no record bound at all, and the
result can exceed 3 records. -/
theorem C3_counterexample :
    (perform_search_model ⟨true, false⟩
        (fun _ => [RawItem.nondict, RawItem.nondict, RawItem.nondict, RawItem.nondict])
        "Phone" "x" none).2.map PrimaryQuery.maxRecords = [none] ∧
    3 < (perform_search_model ⟨true, false⟩
        (fun _ => [RawItem.nondict, RawItem.nondict, RawItem.nondict, RawItem.nondict])
        "Phone" "x" none).1.length := by
  decide

/-- C3 (amended). Whenever the REST strategy is used (pyairtable
unavailable) or the installed pyairtable accepts the `max_records`
keyword, every primary query is issued with a maximum-records bound of 3
and the fetched list never exceeds 3 records; only the `except TypeError`
fallback escapes the bound. -/
theorem C3_bounded (client : ClientEnv) (server : PrimaryQuery → List RawItem)
    (field_name value : String) (view : Option String)
    (h : client.pyairtable_available = false ∨ client.accepts_max_records = true) :
    (∀ q ∈ (perform_search_model client server field_name value view).2,
      q.maxRecords = some 3) ∧
    (perform_search_model client server field_name value view).1.length ≤ 3 := by
  obtain ⟨pa, amr⟩ := client
  rcases h with h | h
  · simp only at h
    subst h
    refine ⟨?_, ?_⟩ <;>
      simp [perform_search_model, applyMax, List.length_take_le]
  · simp only at h
    subst h
    cases pa <;> (refine ⟨?_, ?_⟩ <;>
      simp [perform_search_model, applyMax, List.length_take_le])

/-- C3 witness: the REST strategy on a concrete query, where the bound
of 3 is in force. -/
theorem C3_witness :
    (∀ q ∈ (perform_search_model ⟨false, false⟩ (fun _ => []) "Email" "a" none).2,
      q.maxRecords = some 3) ∧
    (perform_search_model ⟨false, false⟩ (fun _ => []) "Email" "a" none).1.length ≤ 3 :=
  C3_bounded ⟨false, false⟩ (fun _ => []) "Email" "a" none (Or.inl rfl)

/-- C5. `fetch_linked_records` is a total function into record lists (it
can only ever hand a list back to its caller, never an exception), and on
any failure of the remote request or response parsing it returns the
empty list. -/
theorem C5_fetch_linked_total (http : LinkedRequest → HttpOutcome)
    (linked_table_name : String) (record_ids : List String)
    (hexc : http (linkedRequest linked_table_name record_ids) = HttpOutcome.exc) :
    fetch_linked_records http linked_table_name record_ids = [] := by
  unfold fetch_linked_records
  split
  · rfl
  · rw [hexc]

/-- C5 witness: a remote layer that always throws yields the empty list on
a concrete linked-table request. -/
theorem C5_witness :
    fetch_linked_records (fun _ => HttpOutcome.exc) "tbl5llU1H1vvOJV34" ["recA"] = [] :=
  C5_fetch_linked_total (fun _ => HttpOutcome.exc) "tbl5llU1H1vvOJV34" ["recA"] rfl

/-- C7. For identifier lists longer than 10, `fetch_linked_records`
behaves exactly as on the first 10 identifiers: the membership formula it
builds and the whole fetch are invariant under truncation to 10, and the
single request it issues carries `maxRecords = 10`. -/
theorem C7_linked_truncation (http : LinkedRequest → HttpOutcome)
    (linked_table_name : String) (record_ids : List String)
    (h : 10 < record_ids.length) :
    fetch_linked_records http linked_table_name record_ids =
      fetch_linked_records http linked_table_name (record_ids.take 10) ∧
    buildLinkedFormula record_ids = buildLinkedFormula (record_ids.take 10) ∧
    (linkedRequest linked_table_name record_ids).maxRecords = 10 := by
  have hf : buildLinkedFormula record_ids = buildLinkedFormula (record_ids.take 10) := by
    simp [buildLinkedFormula, List.take_take]
  have hreq : linkedRequest linked_table_name record_ids =
      linkedRequest linked_table_name (record_ids.take 10) := by
    simp [linkedRequest, hf]
  refine ⟨?_, hf, rfl⟩
  have h1 : record_ids.isEmpty = false := by
    rcases record_ids with _ | _
    · simp at h
    · rfl
  have h2 : (record_ids.take 10).isEmpty = false := by
    rcases record_ids with _ | _
    · simp at h
    · rfl
  unfold fetch_linked_records
  rw [hreq, h1, h2]

/-- C7 witness: an 11-identifier list, where the fetch coincides with the
fetch on the first 10. -/
theorem C7_witness :
    fetch_linked_records (fun _ => HttpOutcome.ok []) "tblremNCbcR0kUIDF"
        ["i1", "i2", "i3", "i4", "i5", "i6", "i7", "i8", "i9", "i10", "i11"] =
      fetch_linked_records (fun _ => HttpOutcome.ok []) "tblremNCbcR0kUIDF"
        (["i1", "i2", "i3", "i4", "i5", "i6", "i7", "i8", "i9", "i10", "i11"].take 10) ∧
    buildLinkedFormula ["i1", "i2", "i3", "i4", "i5", "i6", "i7", "i8", "i9", "i10", "i11"] =
      buildLinkedFormula
        (["i1", "i2", "i3", "i4", "i5", "i6", "i7", "i8", "i9", "i10", "i11"].take 10) ∧
    (linkedRequest "tblremNCbcR0kUIDF"
        ["i1", "i2", "i3", "i4", "i5", "i6", "i7", "i8", "i9", "i10", "i11"]).maxRecords = 10 :=
  C7_linked_truncation (fun _ => HttpOutcome.ok []) "tblremNCbcR0kUIDF"
    ["i1", "i2", "i3", "i4", "i5", "i6", "i7", "i8", "i9", "i10", "i11"] (by decide)

/-- One-step unfolding of the pagination loop on a successful page. -/
theorem fetch_pages_cons_success (view_id : String) (off : Option String)
    (acc : List AirRecord) (page : AirPage) (rest : List PageResponse) :
    fetch_pages view_id off acc (PageResponse.success page :: rest) =
      if truthyOpt page.offset then
        ((fetch_pages view_id page.offset (acc ++ page.records) rest).1,
          (⟨view_id, 100, if truthyOpt off then off else none⟩ : PageRequest) ::
            (fetch_pages view_id page.offset (acc ++ page.records) rest).2)
      else (Except.ok (acc ++ page.records),
        [⟨view_id, 100, if truthyOpt off then off else none⟩]) := rfl

/-- Unfolding of the pagination loop over a stream of successful pages in
which every page but the last carries a truthy cursor: the loop returns
the accumulator followed by all pages' records, and issues one request
per page, the first with the starting cursor and each later one with the
previous page's cursor. -/
theorem fetch_pages_success (view_id : String) :
    ∀ (pages : List AirPage), pages ≠ [] → wellCursored pages = true →
    ∀ (off : Option String) (acc : List AirRecord),
    fetch_pages view_id off acc (pages.map PageResponse.success) =
      (Except.ok (acc ++ pagesRecords pages),
       (⟨view_id, 100, if truthyOpt off then off else none⟩ : PageRequest) ::
         pages.dropLast.map (fun p => (⟨view_id, 100, p.offset⟩ : PageRequest))) := by
  intro pages
  induction pages with
  | nil => intro h; simp at h
  | cons p rest ih =>
    intro _ hw off acc
    rcases rest with _ | ⟨q, rest2⟩
    · have hno : truthyOpt p.offset = false := by
        simpa [wellCursored] using hw
      simp [fetch_pages, hno, List.dropLast, pagesRecords]
    · have h1 : truthyOpt p.offset = true ∧ wellCursored (q :: rest2) = true := by
        simpa [wellCursored] using hw
      obtain ⟨ht, hw2⟩ := h1
      have hrec := ih (by simp) hw2 p.offset (acc ++ p.records)
      rw [List.map_cons, fetch_pages_cons_success, ht, if_pos rfl, hrec]
      simp [List.dropLast, pagesRecords, List.append_assoc, ht]

/-- C6. For every page sequence `P1,...,Pn` in which each page but the
last carries a continuation cursor and the last omits it,
`fetch_all_from_view` returns the concatenation of all pages' record
lists in their given order, issues exactly `n` requests, and carries each
page's cursor into the next request (the first request carrying none). -/
theorem C6_pagination (view_id : String) (pages : List AirPage)
    (hne : pages ≠ []) (hw : wellCursored pages = true) :
    (fetch_all_from_view view_id (pages.map PageResponse.success)).1 =
      Except.ok (pagesRecords pages) ∧
    (fetch_all_from_view view_id (pages.map PageResponse.success)).2.map
        PageRequest.offset = none :: pages.dropLast.map AirPage.offset ∧
    (fetch_all_from_view view_id (pages.map PageResponse.success)).2.length =
      pages.length := by
  have key := fetch_pages_success view_id pages hne hw none []
  unfold fetch_all_from_view
  rw [key]
  have hlen : 0 < pages.length := List.length_pos.mpr hne
  refine ⟨by simp, ?_, ?_⟩
  · have hcomp : (PageRequest.offset ∘ fun p : AirPage =>
        (⟨view_id, 100, p.offset⟩ : PageRequest)) = AirPage.offset := rfl
    simp only [List.map_cons, List.map_map, hcomp]
    rfl
  · simp only [List.length_cons, List.length_map, List.length_dropLast]
    omega

/-- C6 witness: the pagination theorem evaluated on two concrete pages. -/
theorem C6_witness :
    (fetch_all_from_view "viwX" (samplePages.map PageResponse.success)).1 =
      Except.ok (pagesRecords samplePages) ∧
    (fetch_all_from_view "viwX" (samplePages.map PageResponse.success)).2.map
        PageRequest.offset = none :: samplePages.dropLast.map AirPage.offset ∧
    (fetch_all_from_view "viwX" (samplePages.map PageResponse.success)).2.length =
      samplePages.length :=
  C6_pagination "viwX" samplePages (by decide) (by decide)

/-- `fvLe` is reflexive. -/
theorem fvLe_refl (a : FieldValue) : fvLe a a = true := by
  cases a <;> simp [fvLe]

/-- In a list sorted by `fvle`, the last element is an upper bound. -/
theorem fvle_getLast_max :
    ∀ (l : List FieldValue), l.Sorted fvle → ∀ (hne : l ≠ []) (x : FieldValue),
      x ∈ l → fvLe x (l.getLast hne) = true := by
  intro l
  induction l with
  | nil => intro _ hne; exact absurd rfl hne
  | cons a t ih =>
    intro hs hne x hx
    rcases t with _ | ⟨b, t2⟩
    · simp only [List.mem_singleton] at hx
      subst hx
      exact fvLe_refl x
    · rw [List.sorted_cons] at hs
      obtain ⟨ha, hs2⟩ := hs
      have hbt : (b :: t2) ≠ [] := by simp
      have hlast : (a :: b :: t2).getLast hne = (b :: t2).getLast hbt :=
        List.getLast_cons hbt
      rcases List.mem_cons.mp hx with rfl | hx2
      · rw [hlast]
        exact ha _ (List.getLast_mem hbt)
      · rw [hlast]
        exact ih hs2 hbt x hx2

/-- C8. Counterexample to the claim as stated: a record whose
`Completed Timestamp` is the non-null empty string. The claim asks for
the lexicographically greatest non-null value (here `""`), but the code's
truthiness filter (`if ct:`) drops empty strings, so the metadata field
is absent. -/
theorem C8_counterexample :
    dictGetF [("Completed Timestamp", FieldValue.str "")] "Completed Timestamp" =
      some (FieldValue.str "") ∧
    newest_completed_timestamp
      [⟨some "rec1", [("Completed Timestamp", FieldValue.str "")], none⟩] = none := by
  decide

/-- C8 (amended). When all collected (non-null, non-empty) timestamp
values are strings: the `newest_completed_timestamp` field is absent
exactly when no record carries a truthy timestamp, and otherwise equals
the lexicographically greatest collected timestamp string. -/
theorem C8_newest_timestamp (records : List AirRecord)
    (hstr : ∀ v ∈ collectCompletedTimestamps records, ∃ s, v = FieldValue.str s) :
    (collectCompletedTimestamps records = [] →
      newest_completed_timestamp records = none) ∧
    (collectCompletedTimestamps records ≠ [] →
      ∃ M, newest_completed_timestamp records = some (FieldValue.str M) ∧
        FieldValue.str M ∈ collectCompletedTimestamps records ∧
        ∀ s, FieldValue.str s ∈ collectCompletedTimestamps records → s ≤ M) := by
  constructor
  · intro hc
    by_cases hre : records.isEmpty
    · simp [newest_completed_timestamp, hre]
    · simp [newest_completed_timestamp, hre, hc]
  · intro hc
    have hrec_ne : records ≠ [] := by
      intro h
      subst h
      exact hc rfl
    have hre : records.isEmpty = false := by
      cases records with
      | nil => exact absurd rfl hrec_ne
      | cons a t => rfl
    have hts_empty : (collectCompletedTimestamps records).isEmpty = false := by
      rcases h : collectCompletedTimestamps records with _ | ⟨a, t⟩
      · exact absurd h hc
      · rfl
    have hst_ne : List.insertionSort fvle (collectCompletedTimestamps records) ≠ [] := by
      intro h
      have p := List.perm_insertionSort fvle (collectCompletedTimestamps records)
      rw [h] at p
      exact hc p.symm.eq_nil
    have hmem_ts :
        (List.insertionSort fvle (collectCompletedTimestamps records)).getLast hst_ne ∈
          collectCompletedTimestamps records :=
      (List.perm_insertionSort fvle _).mem_iff.mp (List.getLast_mem hst_ne)
    obtain ⟨M, hM⟩ := hstr _ hmem_ts
    have hnewest : newest_completed_timestamp records = some (FieldValue.str M) := by
      simp only [newest_completed_timestamp, hre, hts_empty, Bool.false_eq_true,
        if_false]
      rw [List.getLast?_eq_getLast _ hst_ne, hM]
    refine ⟨M, hnewest, hM ▸ hmem_ts, ?_⟩
    intro s hs
    have hle := fvle_getLast_max
      (List.insertionSort fvle (collectCompletedTimestamps records))
      (List.sorted_insertionSort fvle _) hst_ne (FieldValue.str s)
      ((List.perm_insertionSort fvle _).mem_iff.mpr hs)
    rw [hM] at hle
    have hd : decide (s ≤ M) = true := by simpa [fvLe] using hle
    exact of_decide_eq_true hd

/-- C8 witness: the amended theorem evaluated on two concrete records. -/
theorem C8_witness :
    (collectCompletedTimestamps sampleCompleted = [] →
      newest_completed_timestamp sampleCompleted = none) ∧
    (collectCompletedTimestamps sampleCompleted ≠ [] →
      ∃ M, newest_completed_timestamp sampleCompleted = some (FieldValue.str M) ∧
        FieldValue.str M ∈ collectCompletedTimestamps sampleCompleted ∧
        ∀ s, FieldValue.str s ∈ collectCompletedTimestamps sampleCompleted → s ≤ M) :=
  C8_newest_timestamp sampleCompleted (by
    intro v hv
    have hcoll : collectCompletedTimestamps sampleCompleted =
        [FieldValue.str "2025-09-28T10:00:00Z",
         FieldValue.str "2025-10-01T08:00:00Z"] := by decide
    rw [hcoll] at hv
    simp only [List.mem_cons, List.mem_singleton, List.not_mem_nil, or_false] at hv
    rcases hv with rfl | rfl
    · exact ⟨_, rfl⟩
    · exact ⟨_, rfl⟩)

/-- C2. The claim fails on the code, and the code contradicts its own
documentation ("It never raises unhandled exceptions"): a valid JSON
payload that is not an object — here the JSON string document `"abc"` —
makes `payload.get("field", "")` raise `AttributeError` with no handler,
so the process prints a traceback and exits nonzero instead of emitting a
JSON envelope. The empty-stdin path, by contrast, emits the documented
`INPUT_ERROR` envelope. -/
theorem C2_nonobject_payload_crashes :
    lookup_main (StdinModel.json (PyJson.str "abc"))
        ⟨some "key", some "base", some "table", none⟩
        (fun _ => SearchResult.found []) (fun _ _ => []) =
      ScriptOutcome.crashed "AttributeError: payload has no attribute get" ∧
    exitCode (lookup_main (StdinModel.json (PyJson.str "abc"))
        ⟨some "key", some "base", some "table", none⟩
        (fun _ => SearchResult.found []) (fun _ _ => [])) ≠ 0 ∧
    lookup_main StdinModel.empty
        ⟨some "key", some "base", some "table", none⟩
        (fun _ => SearchResult.found []) (fun _ _ => []) =
      ScriptOutcome.emitted (Envelope.errorEnv
        ⟨"Missing input payload", "INPUT_ERROR", false⟩) := by
  refine ⟨rfl, by decide, rfl⟩

/-- C4. Counterexample to the claim as stated: exactly one matched record
with a populated linked field, but the linked-record fetch returns the
empty list (its silent-failure result), so the simplified record carries
no `expanded` key. -/
theorem C4_counterexample :
    dictGetF [("Applications ↗", FieldValue.list ["recA"])] "Applications ↗" =
      some (FieldValue.list ["recA"]) ∧
    (["recA"] : List String) ≠ [] ∧
    simplify_matches (fun _ _ => [])
        [RawItem.record ⟨some "rec1", [("Applications ↗", FieldValue.list ["recA"])], some "tc"⟩] =
      [⟨some "rec1", [("Applications ↗", FieldValue.list ["recA"])], some "tc", none⟩] := by
  decide

/-- An expansion step never empties a nonempty accumulator. -/
theorem expand_step_ne (lf : String → List String → List AirRecord)
    (fields : List (String × FieldValue)) (acc : List (String × List AirRecord))
    (ft : String × String) (h : acc ≠ []) :
    expand_step lf fields acc ft ≠ [] := by
  unfold expand_step
  split
  · split
    · exact h
    · dsimp only
      split
      · exact h
      · simp
  · exact h

/-- An expansion step on a present, nonempty linked field whose fetch
returns records appends one entry. -/
theorem expand_step_hit (lf : String → List String → List AirRecord)
    (fields : List (String × FieldValue)) (acc : List (String × List AirRecord))
    (fname tid : String) (ids : List String)
    (hfield : dictGetF fields fname = some (FieldValue.list ids))
    (hids : ids.isEmpty = false) (hlink : (lf tid ids).isEmpty = false) :
    expand_step lf fields acc (fname, tid) =
      acc ++ [(fname.replace " ↗" "_expanded", lf tid ids)] := by
  unfold expand_step
  simp [hfield, hids, hlink]

/-- The expansion dict is nonempty whenever some configured linked field
is present, nonempty, and resolves to at least one record. -/
theorem expand_linked_ne (lf : String → List String → List AirRecord)
    (fields : List (String × FieldValue)) (fname tid : String) (ids : List String)
    (hmem : (fname, tid) ∈ LINKED_TABLES)
    (hfield : dictGetF fields fname = some (FieldValue.list ids))
    (hids : ids ≠ []) (hlink : lf tid ids ≠ []) :
    expand_linked lf fields ≠ [] := by
  have hids' : ids.isEmpty = false := by
    cases ids with
    | nil => exact absurd rfl hids
    | cons a t => rfl
  have hlink' : (lf tid ids).isEmpty = false := by
    rcases h : lf tid ids with _ | ⟨a, t⟩
    · exact absurd h hlink
    · rfl
  simp only [LINKED_TABLES, List.mem_cons, List.mem_singleton, List.not_mem_nil,
    or_false, Prod.mk.injEq] at hmem
  unfold expand_linked LINKED_TABLES
  simp only [List.foldl_cons, List.foldl_nil]
  rcases hmem with ⟨rfl, rfl⟩ | ⟨rfl, rfl⟩
  · apply expand_step_ne
    rw [expand_step_hit lf fields [] _ _ ids hfield hids' hlink']
    simp
  · rw [expand_step_hit lf fields _ _ _ ids hfield hids' hlink']
    simp

/-- C4 (amended). The cardinality gate of the expansion step: with two or
more matches, no simplified record carries an `expanded` key; with
exactly one matched record that has a populated configured linked field
whose resolution returns at least one record, the simplified record
carries an `expanded` key. -/
theorem C4_cardinality_gate (linkFetch : String → List String → List AirRecord)
    (matchList : List RawItem) :
    (2 ≤ matchList.length →
      ∀ s ∈ simplify_matches linkFetch matchList, s.expanded = none) ∧
    (∀ r : AirRecord, matchList = [RawItem.record r] →
      (∃ fname tid ids, (fname, tid) ∈ LINKED_TABLES ∧
        dictGetF r.fields fname = some (FieldValue.list ids) ∧ ids ≠ [] ∧
        linkFetch tid ids ≠ []) →
      ∃ s, simplify_matches linkFetch matchList = [s] ∧ s.expanded ≠ none) := by
  constructor
  · intro h2 s hs
    unfold simplify_matches at hs
    rw [List.mem_filterMap] at hs
    obtain ⟨item, hitem, hsome⟩ := hs
    cases item with
    | nondict => simp at hsome
    | record r =>
      have hne1 : matchList.length ≠ 1 := by omega
      dsimp only at hsome
      rw [if_neg hne1] at hsome
      obtain rfl := Option.some.inj hsome
      rfl
  · intro r hmlist hex
    obtain ⟨fname, tid, ids, hmem, hfield, hids, hlink⟩ := hex
    subst hmlist
    have hne : expand_linked linkFetch r.fields ≠ [] :=
      expand_linked_ne linkFetch r.fields fname tid ids hmem hfield hids hlink
    have hne' : (expand_linked linkFetch r.fields).isEmpty = false := by
      rcases h : expand_linked linkFetch r.fields with _ | ⟨a, t⟩
      · exact absurd h hne
      · rfl
    refine ⟨⟨r.id, r.fields, r.createdTime, some (expand_linked linkFetch r.fields)⟩,
      ?_, by simp⟩
    unfold simplify_matches
    simp [List.filterMap_cons, hne', hne]

/-- C4 witness: the gate's positive half on a concrete single match with
a populated `Applications ↗` field and a resolver returning one record. -/
theorem C4_witness :
    ∃ s, simplify_matches sampleLink [RawItem.record sampleRec] = [s] ∧
      s.expanded ≠ none :=
  (C4_cardinality_gate sampleLink [RawItem.record sampleRec]).2 sampleRec rfl
    ⟨"Applications ↗", "tbl5llU1H1vvOJV34", ["recA"], by decide, by decide,
      by decide, by decide⟩

/-- C9. Counterexample to the claim as stated: the field string `"Phone"`
designates the phone field (`normalise_field` accepts it
case-insensitively), the direct search yields zero matches, a variant
exists and would match, yet no retry happens — the emitted envelope has
empty matches and no `used_phone_variant` / `variant_used` keys — because
the code compares the raw field string to the exact literal `"phone"`. -/
theorem C9_counterexample :
    normalise_field "Phone" = Except.ok "Phone" ∧
    get_israeli_phone_variant "972501234567" = some "9720501234567" ∧
    phoneSearch "972501234567" = SearchResult.found [] ∧
    phoneSearch "9720501234567" ≠ SearchResult.found [] ∧
    lookup_main (StdinModel.json (PyJson.obj
        [("field", PyJson.str "Phone"), ("value", PyJson.str "972501234567")]))
      ⟨some "key", some "base", some "table", none⟩ phoneSearch (fun _ _ => []) =
      ScriptOutcome.emitted (Envelope.okEnv [] ⟨0, false, none, none⟩) := by
  refine ⟨rfl, by decide, by decide, by decide, ?_⟩
  rfl

/-- C9 (amended). When the raw `field` string is exactly `"phone"`: a
zero-match direct search with an existing phone variant triggers exactly
one retry with the variant; when the retry matches, the success metadata
carries `used_phone_variant = true` and `variant_used` equal to the
variant; when the direct search matches, or no variant exists, the two
keys are absent. -/
theorem C9_phone_retry (value : String) (search : String → SearchResult)
    (linkFetch : String → List String → List AirRecord) :
    (∀ variant ms1, search value = SearchResult.found [] →
      get_israeli_phone_variant value = some variant →
      search variant = SearchResult.found ms1 → ms1 ≠ [] →
      ∃ ms meta, search_and_emit "phone" value search linkFetch =
          ScriptOutcome.emitted (Envelope.okEnv ms meta) ∧
        meta.used_phone_variant = some true ∧ meta.variant_used = some variant) ∧
    (∀ ms0, search value = SearchResult.found ms0 → ms0 ≠ [] →
      ∃ ms meta, search_and_emit "phone" value search linkFetch =
          ScriptOutcome.emitted (Envelope.okEnv ms meta) ∧
        meta.used_phone_variant = none ∧ meta.variant_used = none) ∧
    (search value = SearchResult.found [] →
      get_israeli_phone_variant value = none →
      ∃ ms meta, search_and_emit "phone" value search linkFetch =
          ScriptOutcome.emitted (Envelope.okEnv ms meta) ∧
        meta.used_phone_variant = none ∧ meta.variant_used = none) := by
  refine ⟨?_, ?_, ?_⟩
  · intro variant ms1 hsv hvar hsv2 hms1
    have hx : search_and_emit "phone" value search linkFetch =
        finish_lookup linkFetch ms1 true (some variant) := by
      unfold search_and_emit resolve_matches
      rw [hsv]
      dsimp only
      rw [if_pos ⟨rfl, rfl⟩, hvar]
      dsimp only
      rw [hsv2]
      dsimp only
      rw [if_pos (List.length_pos.mpr hms1)]
    exact ⟨simplify_matches linkFetch ms1,
      ⟨(simplify_matches linkFetch ms1).length, ms1.length == 1, some true,
        some variant⟩, by rw [hx]; rfl, rfl, rfl⟩
  · intro ms0 hsv hms0
    have hx : search_and_emit "phone" value search linkFetch =
        finish_lookup linkFetch ms0 false none := by
      unfold search_and_emit resolve_matches
      rw [hsv]
      dsimp only
      rw [if_neg (fun hand => hms0 (List.length_eq_zero.mp hand.1))]
    exact ⟨simplify_matches linkFetch ms0,
      ⟨(simplify_matches linkFetch ms0).length, ms0.length == 1, none, none⟩,
      by rw [hx]; rfl, rfl, rfl⟩
  · intro hsv hvar
    have hx : search_and_emit "phone" value search linkFetch =
        finish_lookup linkFetch [] false none := by
      unfold search_and_emit resolve_matches
      rw [hsv]
      dsimp only
      rw [if_pos ⟨rfl, rfl⟩, hvar]
    exact ⟨simplify_matches linkFetch [],
      ⟨(simplify_matches linkFetch []).length, ([] : List RawItem).length == 1,
        none, none⟩, by rw [hx]; rfl, rfl, rfl⟩

/-- C9 witness: the amended retry behaviour on the concrete scenario
`972501234567` (zero direct matches, one match on the variant
`9720501234567`). -/
theorem C9_witness :
    ∃ ms meta, search_and_emit "phone" "972501234567" phoneSearch (fun _ _ => []) =
        ScriptOutcome.emitted (Envelope.okEnv ms meta) ∧
      meta.used_phone_variant = some true ∧
      meta.variant_used = some "9720501234567" :=
  (C9_phone_retry "972501234567" phoneSearch (fun _ _ => [])).1
    "9720501234567" [RawItem.record ⟨some "recX", [], none⟩]
    (by decide) (by decide) (by decide) (by decide)

/-- A `filterMap` whose function keeps exactly the elements selected by a
boolean predicate produces a list of the same length as the filter. -/
theorem filterMap_keep_length {α β : Type} (f : α → Option β) (keep : α → Bool)
    (hf : ∀ a, (f a).isSome = keep a) (l : List α) :
    (l.filterMap f).length = (l.filter keep).length := by
  induction l with
  | nil => rfl
  | cons a t ih =>
    rcases hfa : f a with _ | b
    · have hk : keep a = false := by rw [← hf a, hfa]; rfl
      simp [List.filterMap_cons, List.filter_cons, hfa, hk, ih]
    · have hk : keep a = true := by rw [← hf a, hfa]; rfl
      simp [List.filterMap_cons, List.filter_cons, hfa, hk, ih]

/-- The simplification loop emits one record per dict item: non-dict raw
items are dropped, everything else is kept. -/
theorem simplify_matches_length (linkFetch : String → List String → List AirRecord)
    (matchList : List RawItem) :
    (simplify_matches linkFetch matchList).length =
      (matchList.filter isDict).length := by
  unfold simplify_matches
  apply filterMap_keep_length
  intro a
  cases a with
  | nondict => rfl
  | record r =>
    dsimp only
    split
    · split <;> rfl
    · rfl

/-- C10. Every success envelope the lookup script emits satisfies:
`meta.total_matches` equals the length of the emitted matches list, that
list keeps exactly the dict items of the final raw match list (non-dicts
silently dropped), and `meta.expanded` is true exactly when the final raw
fetch returned exactly one record — regardless of whether any expansion
succeeded. -/
theorem C10_meta_invariants (stdin : StdinModel) (env : EnvCfg)
    (search : String → SearchResult)
    (linkFetch : String → List String → List AirRecord)
    (ms : List SimplifiedRecord) (meta : LookupMeta)
    (h : lookup_main stdin env search linkFetch =
      ScriptOutcome.emitted (Envelope.okEnv ms meta)) :
    meta.total_matches = ms.length ∧
    ∃ raw upv vu,
      finish_lookup linkFetch raw upv vu =
        ScriptOutcome.emitted (Envelope.okEnv ms meta) ∧
      ms = simplify_matches linkFetch raw ∧
      ms.length = (raw.filter isDict).length ∧
      meta.expanded = (raw.length == 1) := by
  have key : ∃ raw upv vu, finish_lookup linkFetch raw upv vu =
      ScriptOutcome.emitted (Envelope.okEnv ms meta) := by
    cases stdin with
    | empty => simp [lookup_main] at h
    | notJson raw => simp [lookup_main] at h
    | json payload =>
      cases payload with
      | null => simp [lookup_main] at h
      | bool b => simp [lookup_main] at h
      | num n => simp [lookup_main] at h
      | str s => simp [lookup_main] at h
      | arr elems => simp [lookup_main] at h
      | obj entries =>
        simp only [lookup_main] at h
        repeat' split at h
        all_goals try simp at h
        all_goals
          unfold search_and_emit at h
          split at h
          · simp at h
          · exact ⟨_, _, _, h⟩
  obtain ⟨raw, upv, vu, hfin⟩ := key
  have hfin2 := hfin
  unfold finish_lookup at hfin2
  simp only [ScriptOutcome.emitted.injEq, Envelope.okEnv.injEq] at hfin2
  obtain ⟨hms, hmeta⟩ := hfin2
  subst hmeta
  subst hms
  exact ⟨rfl, raw, upv, vu, hfin, rfl, simplify_matches_length linkFetch raw, rfl⟩

/-- C10 witness: the invariants extracted from a concrete zero-match run
(empty matches list, `total_matches = 0`, `expanded = false`). -/
theorem C10_witness :
    (⟨0, false, none, none⟩ : LookupMeta).total_matches =
      ([] : List SimplifiedRecord).length ∧
    ∃ raw upv vu,
      finish_lookup (fun _ _ => []) raw upv vu =
        ScriptOutcome.emitted (Envelope.okEnv [] ⟨0, false, none, none⟩) ∧
      ([] : List SimplifiedRecord) = simplify_matches (fun _ _ => []) raw ∧
      ([] : List SimplifiedRecord).length = (raw.filter isDict).length ∧
      (⟨0, false, none, none⟩ : LookupMeta).expanded = (raw.length == 1) :=
  C10_meta_invariants (StdinModel.json (PyJson.obj
      [("field", PyJson.str "email"), ("value", PyJson.str "abc")]))
    ⟨some "key", some "base", some "table", none⟩
    (fun _ => SearchResult.found []) (fun _ _ => []) [] ⟨0, false, none, none⟩
    (by decide)

end VisAPI
